import Mathlib

/-!
Shallow embedding of the PintrestScraper repository (src/scrape.ts).

The in-page DOM extraction callbacks are modelled as pure functions over
record types that carry exactly the attribute and text values the callbacks
query; the browser session lifecycle is modelled as explicit state passing
over a `SessionState` record with a ghost log of launched and closed
browser processes.
-/

namespace Scrape

/-- Boolean prefix test on character lists, the matching primitive used to
model the JavaScript string operations below. -/
def pfx : List Char → List Char → Bool
  | [], _ => true
  | _ :: _, [] => false
  | a :: as, b :: bs => a == b && pfx as bs

/-- Does `pat` occur as a contiguous substring of `l`?  Models the
JavaScript `String.prototype.includes` test used only in specification
statements about outputs. -/
def hasTok (pat : List Char) : List Char → Bool
  | [] => pfx pat []
  | c :: cs => pfx pat (c :: cs) || hasTok pat cs

/-- Number of (possibly overlapping) occurrences of `pat` in `l`. -/
def occCount (pat : List Char) : List Char → Nat
  | [] => 0
  | c :: cs => (if pfx pat (c :: cs) then 1 else 0) + occCount pat cs

/-- String-level wrapper for `hasTok`. -/
def containsTok (s pat : String) : Bool := hasTok pat.data s.data

/-- Core of `jsReplaceFirst`: JavaScript `String.prototype.replace` with a
string pattern replaces only the leftmost occurrence. -/
def rfAux (pat rep : List Char) : List Char → List Char
  | [] => if pat.isEmpty then rep else []
  | c :: cs =>
      if pfx pat (c :: cs) then rep ++ (c :: cs).drop pat.length
      else c :: rfAux pat rep cs

/-- Model of JavaScript `s.replace(pat, rep)` with a plain string pattern:
only the first occurrence of `pat` is replaced. -/
def jsReplaceFirst (s pat rep : String) : String :=
  String.mk (rfAux pat.data rep.data s.data)

/-- The image URL rewriting step `u.replace("236x", "1200x")` from
`searchPins` in src/scrape.ts. -/
def rewriteImg (u : String) : String := jsReplaceFirst u "236x" "1200x"

/-- Model of `s.replace(/\D/g, "")`: keep only the decimal digits. -/
def stripNonDigits (s : String) : String := String.mk (s.data.filter Char.isDigit)

/-- Decimal value of a list of digit characters. -/
def digitsToNat (l : List Char) : Nat := l.foldl (fun a c => a * 10 + (c.toNat - 48)) 0

/-- Model of `parseInt(t?.replace(/\D/g, "") ?? "0") || 0` from
src/scrape.ts (`repins` in `getPinDetails`, `pinCount` in
`getUserProfile`): strip every non-digit, convert the remaining digit
string, and default to 0 when the text is absent or no digit remains. -/
def parseCount (t : Option String) : Nat :=
  match t with
  | none => 0
  | some s =>
      let d := stripNonDigits s
      if d = "" then 0 else digitsToNat d.data

/-- Scan modelling JavaScript `href.match(/\/pin\/(\d+)/)?.[1]`: find the
leftmost position where `/pin/` is followed by at least one digit and
return the maximal digit run after it. -/
def pinIdScan : List Char → Option String
  | [] => none
  | c :: cs =>
      if pfx "/pin/".data (c :: cs) then
        let ds := ((c :: cs).drop 5).takeWhile Char.isDigit
        if ds.isEmpty then pinIdScan cs else some (String.mk ds)
      else pinIdScan cs

/-- Model of `href.match(/\/pin\/(\d+)/)?.[1] ?? ""` from src/scrape.ts. -/
def getPinId (href : String) : String := (pinIdScan href.data).getD ""

/-- Model of `el?.textContent?.trim() ?? ""`. -/
def optTrim (t : Option String) : String := (t.map String.trim).getD ""

/-- Accumulator pass for `jsSplit`. -/
def splitCharAux (sep : Char) : List Char → List Char → List String
  | [], acc => [String.mk acc.reverse]
  | c :: cs, acc =>
      if c == sep then String.mk acc.reverse :: splitCharAux sep cs []
      else splitCharAux sep cs (c :: acc)

/-- Model of JavaScript `s.split(sep)` for a one-character separator, used
by the board id derivation `href.split("/")[2]`. -/
def jsSplit (sep : Char) (s : String) : List String := splitCharAux sep s.data []

/-- The `Pin` record of src/scrape.ts. -/
structure Pin where
  id : String
  title : String
  description : String
  imageUrl : String
  link : String
  pinterestUrl : String
  board : Option String := none
  repins : Option Nat := none
deriving DecidableEq

/-- The `Board` record of src/scrape.ts. -/
structure Board where
  id : String
  name : String
  description : String
  pinCount : Nat
  url : String
  coverImage : String
deriving DecidableEq

/-- The `UserProfile` record of src/scrape.ts. -/
structure UserProfile where
  username : String
  fullName : String
  bio : String
  followers : String
  following : String
  monthlyViews : String
  boards : List Board
deriving DecidableEq

/-- The attribute values the `searchPins` in-page callback reads from one
pin card element: `linkEl?.getAttribute("href")`, `imgEl?.getAttribute("src")`
and `imgEl?.getAttribute("data-src")` (all `none` when the nested element or
attribute is missing). -/
structure SearchPinEl where
  href : Option String := none
  imgSrc : Option String := none
  imgDataSrc : Option String := none
deriving DecidableEq

/-- The image source used by `searchPins`:
`imgEl?.getAttribute("src") ?? imgEl?.getAttribute("data-src") ?? ""`. -/
def searchSrc (el : SearchPinEl) : String := (el.imgSrc <|> el.imgDataSrc).getD ""

/-- In-page extraction of `searchPins` over the queried pin card elements,
followed by the final `pins.filter(e => e != "")`: per element, derive the
pin id from the link href, skip the element when none derives, otherwise
push the size-token-rewritten image source. -/
def searchPinsEval (els : List SearchPinEl) : List String :=
  (els.filterMap fun el =>
      if getPinId (el.href.getD "") = "" then none
      else some (rewriteImg (searchSrc el))).filter
    (fun e => !(e == ""))

/-- The attribute and text values the `getBoardPins` in-page callback reads
from one pin card element. -/
structure BoardPinEl where
  href : Option String := none
  imgSrc : Option String := none
  titleText : Option String := none
deriving DecidableEq

/-- In-page extraction of `getBoardPins`: per element, derive the pin id
from the link href, skip the element when none derives, otherwise build a
`Pin` with empty description and link and a joined canonical URL. -/
def getBoardPinsEval (els : List BoardPinEl) : List Pin :=
  els.filterMap fun el =>
    let href := el.href.getD ""
    let pinId := getPinId href
    if pinId = "" then none
    else
      some
        { id := pinId
          title := optTrim el.titleText
          description := ""
          imageUrl := el.imgSrc.getD ""
          link := ""
          pinterestUrl := "https://www.pinterest.com" ++ href }

/-- The attribute and text values the `getPinDetails` in-page callback
reads from the pin page document. -/
structure PinDetailsDom where
  imgSrc : Option String := none
  titleText : Option String := none
  descText : Option String := none
  linkHref : Option String := none
  repinsText : Option String := none
deriving DecidableEq

/-- `getPinDetails`: build the record from the document, then
`return pin.id ? pin : null` — absent when no pin id derives from the
supplied URL. -/
def getPinDetailsEval (dom : PinDetailsDom) (pinUrl : String) : Option Pin :=
  let pinId := getPinId pinUrl
  if pinId = "" then none
  else
    some
      { id := pinId
        title := optTrim dom.titleText
        description := optTrim dom.descText
        imageUrl := dom.imgSrc.getD ""
        link := dom.linkHref.getD ""
        pinterestUrl := pinUrl
        repins := some (parseCount dom.repinsText) }

/-- The attribute and text values the `getUserProfile` callback reads from
one board row element. -/
structure BoardRowEl where
  nameText : Option String := none
  linkHref : Option String := none
  imgSrc : Option String := none
  countText : Option String := none
deriving DecidableEq

/-- One board record of `getUserProfile`: the id is the third segment of
the link href split on "/", the count is digit-stripped, the cover image
is the raw img src. -/
def boardOfRow (row : BoardRowEl) : Board :=
  { id := ((jsSplit '/' (row.linkHref.getD ""))[2]?).getD ""
    name := optTrim row.nameText
    description := ""
    pinCount := parseCount row.countText
    url := "https://www.pinterest.com" ++ row.linkHref.getD ""
    coverImage := row.imgSrc.getD "" }

/-- The values the `getUserProfile` callback reads from the profile page:
profile-level elements plus the text of each matched stats element (the
`querySelectorAll` result, in DOM order) and the board rows. -/
structure ProfileDom where
  nameText : Option String := none
  bioText : Option String := none
  stats : List (Option String) := []
  monthlyText : Option String := none
  boardRows : List BoardRowEl := []
deriving DecidableEq

/-- In-page extraction of `getUserProfile`: every field defaults
independently, the username is the caller-supplied argument. -/
def getUserProfileEval (dom : ProfileDom) (uname : String) : UserProfile :=
  { username := uname
    fullName := optTrim dom.nameText
    bio := optTrim dom.bioText
    followers := optTrim ((dom.stats[0]?).join)
    following := optTrim ((dom.stats[1]?).join)
    monthlyViews := optTrim dom.monthlyText
    boards := dom.boardRows.map boardOfRow }

/-- `getUserProfile` always returns the evaluated profile object; the
`UserProfile | null` return type never takes the null branch. -/
def getUserProfileRun (dom : ProfileDom) (uname : String) : Option UserProfile :=
  some (getUserProfileEval dom uname)

/-- Session state of a `PinterestScraper` instance: the nullable browser
handle, plus a ghost log of every browser process launched and closed so
far (process ids are allocated from `nextPid`). -/
structure SessionState where
  browser : Option Nat := none
  nextPid : Nat := 0
  launched : List Nat := []
  closed : List Nat := []
deriving DecidableEq

/-- The state of a freshly constructed scraper, before any `init()`. -/
def initialState : SessionState := {}

/-- `init()`: unconditionally launch a new browser process and store its
handle, overwriting whatever handle was there. -/
def init (s : SessionState) : SessionState :=
  { s with
    browser := some s.nextPid
    nextPid := s.nextPid + 1
    launched := s.launched ++ [s.nextPid] }

/-- `close()`: if a handle exists, close that process and clear the
handle; otherwise do nothing.  The function is total: no error path. -/
def close (s : SessionState) : SessionState :=
  match s.browser with
  | some b => { s with browser := none, closed := s.closed ++ [b] }
  | none => s

/-- The message of the error thrown by `newPage()` without a browser. -/
def notInitializedMsg : String := "Browser not initialized. Call init() first."

/-- `newPage()`: fail when no browser handle exists, otherwise hand out a
page context from the current browser process. -/
def newPage (s : SessionState) : Except String Nat :=
  match s.browser with
  | none => Except.error notInitializedMsg
  | some b => Except.ok b

/-- Caller-supplied `ScraperOptions` object: the outer `Option` records
whether the property is present on the object at all, the inner one its
value (`none` = the property is present but explicitly `undefined`). -/
structure CallerOptions where
  headless : Option (Option Bool) := none
  scrollCount : Option (Option Nat) := none
  delay : Option (Option Nat) := none
deriving DecidableEq

/-- The options record stored on the instance, whose fields may still be
`undefined`. -/
structure StoredOptions where
  headless : Option Bool
  scrollCount : Option Nat
  delay : Option Nat
deriving DecidableEq

/-- `DEFAULT_OPTIONS` of src/scrape.ts. -/
def DEFAULT_OPTIONS : StoredOptions :=
  { headless := some true, scrollCount := some 3, delay := some 2000 }

/-- The constructor merge `{ ...DEFAULT_OPTIONS, ...options }`: a property
present on the caller object overrides the default even when its value is
`undefined`. -/
def mergeOptions (options : CallerOptions) : StoredOptions :=
  { headless := options.headless.getD DEFAULT_OPTIONS.headless
    scrollCount := options.scrollCount.getD DEFAULT_OPTIONS.scrollCount
    delay := options.delay.getD DEFAULT_OPTIONS.delay }

/-- Observable actions of the `scroll` pagination loop. -/
inductive ScrollAction where
  | scrollToBottom : ScrollAction
  | wait : Nat → ScrollAction
deriving DecidableEq

/-- Trace of `scroll`: `count` sequential cycles, each scrolling to the
bottom and then waiting `delayMs`. -/
def scrollTrace : Nat → Nat → List ScrollAction
  | 0, _ => []
  | n + 1, delayMs =>
      ScrollAction.scrollToBottom :: ScrollAction.wait delayMs :: scrollTrace n delayMs

/-- `scroll(page)` reads the loop bound and delay from the stored options
with nullish fallbacks: `this.options.scrollCount ?? 3` and
`this.options.delay ?? 2000`. -/
def scrollOf (o : StoredOptions) : List ScrollAction :=
  scrollTrace (o.scrollCount.getD 3) (o.delay.getD 2000)

/-- Number of scroll actions in a trace. -/
def numScrolls (t : List ScrollAction) : Nat :=
  t.countP fun a => match a with | ScrollAction.scrollToBottom => true | _ => false

/-- Total delay introduced by a trace, in milliseconds. -/
def totalDelay (t : List ScrollAction) : Nat :=
  (t.map fun a => match a with | ScrollAction.wait m => m | _ => 0).sum

lemma pfx_self_append (p : List Char) : ∀ t, pfx p (p ++ t) = true := by
  induction p with
  | nil => intro t; rfl
  | cons a as ih => intro t; simp [pfx, ih t]

lemma pfx_iff_append (p : List Char) : ∀ l, pfx p l = true ↔ ∃ t, l = p ++ t := by
  induction p with
  | nil => intro l; simp [pfx]
  | cons a as ih =>
      intro l
      cases l with
      | nil => simp [pfx]
      | cons b bs =>
          simp only [pfx, Bool.and_eq_true, beq_iff_eq, ih bs, List.cons_append]
          constructor
          · rintro ⟨rfl, t, rfl⟩; exact ⟨t, rfl⟩
          · rintro ⟨t, he⟩
            injection he with h1 h2
            exact ⟨h1.symm, t, h2⟩

lemma hasTok_false_of_occ_zero (a : Char) (as : List Char) :
    ∀ l, occCount (a :: as) l = 0 → hasTok (a :: as) l = false := by
  intro l
  induction l with
  | nil => intro _; rfl
  | cons c cs ih =>
      intro h
      simp only [occCount] at h
      by_cases hq : pfx (a :: as) (c :: cs) = true
      · rw [if_pos hq] at h; omega
      · rw [if_neg hq] at h
        simp only [Nat.zero_add] at h
        simp [hasTok, hq, ih h]

lemma occ_tokHi_append (t : List Char) :
    occCount ['2','3','6','x'] (['1','2','0','0','x'] ++ t)
      = occCount ['2','3','6','x'] t := by
  simp [occCount, pfx]

lemma occ_tokLo_append (t : List Char) :
    occCount ['2','3','6','x'] (['2','3','6','x'] ++ t)
      = 1 + occCount ['2','3','6','x'] t := by
  simp [occCount, pfx]

lemma noc_x : ∀ cs, pfx ['x'] (rfAux ['2','3','6','x'] ['1','2','0','0','x'] cs) = true →
    pfx ['x'] cs = true := by
  intro cs h
  cases cs with
  | nil => simp [rfAux, pfx] at h
  | cons d ds =>
      by_cases hq : pfx ['2','3','6','x'] (d :: ds) = true
      · rw [rfAux, if_pos hq] at h
        simp [pfx] at h
      · rw [rfAux, if_neg hq] at h
        simp [pfx] at h ⊢
        exact h

lemma noc_6x : ∀ cs, pfx ['6','x'] (rfAux ['2','3','6','x'] ['1','2','0','0','x'] cs) = true →
    pfx ['6','x'] cs = true := by
  intro cs h
  cases cs with
  | nil => simp [rfAux, pfx] at h
  | cons d ds =>
      by_cases hq : pfx ['2','3','6','x'] (d :: ds) = true
      · rw [rfAux, if_pos hq] at h
        simp [pfx] at h
      · rw [rfAux, if_neg hq] at h
        simp only [pfx, Bool.and_eq_true] at h ⊢
        exact ⟨h.1, noc_x ds h.2⟩

lemma noc_36x : ∀ cs, pfx ['3','6','x'] (rfAux ['2','3','6','x'] ['1','2','0','0','x'] cs) = true →
    pfx ['3','6','x'] cs = true := by
  intro cs h
  cases cs with
  | nil => simp [rfAux, pfx] at h
  | cons d ds =>
      by_cases hq : pfx ['2','3','6','x'] (d :: ds) = true
      · rw [rfAux, if_pos hq] at h
        simp [pfx] at h
      · rw [rfAux, if_neg hq] at h
        simp only [pfx, Bool.and_eq_true] at h ⊢
        exact ⟨h.1, noc_6x ds h.2⟩

lemma rf_no_tok : ∀ l, occCount ['2','3','6','x'] l ≤ 1 →
    hasTok ['2','3','6','x'] (rfAux ['2','3','6','x'] ['1','2','0','0','x'] l) = false := by
  intro l
  induction l with
  | nil => intro _; simp [rfAux, hasTok, pfx]
  | cons c cs ih =>
      intro h
      by_cases hq : pfx ['2','3','6','x'] (c :: cs) = true
      · obtain ⟨t, ht⟩ := (pfx_iff_append ['2','3','6','x'] (c :: cs)).1 hq
        have hdrop : (c :: cs).drop 4 = t := by
          rw [ht]
          exact List.drop_left ['2','3','6','x'] t
        have hocc : occCount ['2','3','6','x'] t = 0 := by
          rw [ht, occ_tokLo_append] at h
          omega
        rw [rfAux, if_pos hq]
        show hasTok ['2','3','6','x'] (['1','2','0','0','x'] ++ (c :: cs).drop 4) = false
        rw [hdrop]
        apply hasTok_false_of_occ_zero
        rw [occ_tokHi_append]
        exact hocc
      · have hcs : occCount ['2','3','6','x'] cs ≤ 1 := by
          have he : occCount ['2','3','6','x'] (c :: cs) = occCount ['2','3','6','x'] cs := by
            simp [occCount, hq]
          omega
        have ihh := ih hcs
        rw [rfAux, if_neg hq]
        simp only [hasTok, ihh, Bool.or_false]
        cases hpc : pfx ['2','3','6','x']
            (c :: rfAux ['2','3','6','x'] ['1','2','0','0','x'] cs) with
        | false => rfl
        | true =>
            exfalso
            simp only [pfx, Bool.and_eq_true] at hpc
            have h36 := noc_36x cs hpc.2
            apply hq
            simp only [pfx, Bool.and_eq_true]
            exact ⟨hpc.1, h36⟩

lemma rf_id (pat rep : List Char) : ∀ l, hasTok pat l = false → rfAux pat rep l = l := by
  intro l
  induction l with
  | nil =>
      intro h
      cases pat with
      | nil => simp [hasTok, pfx] at h
      | cons a as => rfl
  | cons c cs ih =>
      intro h
      simp only [hasTok, Bool.or_eq_false_iff] at h
      rw [rfAux, if_neg (by simp [h.1]), ih h.2]

lemma numScrolls_trace (n d : Nat) : numScrolls (scrollTrace n d) = n := by
  induction n with
  | zero => rfl
  | succ k ih => simp [scrollTrace, numScrolls, List.countP_cons] at ih ⊢; omega

lemma totalDelay_trace (n d : Nat) : totalDelay (scrollTrace n d) = n * d := by
  induction n with
  | zero => simp [scrollTrace, totalDelay]
  | succ k ih =>
      simp [scrollTrace, totalDelay] at ih ⊢
      rw [ih, Nat.succ_mul]
      omega

/-- C2: with a configured scroll count `n` and delay `d`, the scroll
operation performs exactly `n` sequential scroll-and-delay cycles, so with
`n = 0` it performs no scroll action and introduces no delay, and in
general the total introduced delay is at least (in fact exactly)
`n * d` milliseconds. -/
theorem c2_scroll_cycles (o : StoredOptions) (n d : Nat)
    (h1 : o.scrollCount = some n) (h2 : o.delay = some d) :
    scrollOf o = scrollTrace n d
    ∧ numScrolls (scrollOf o) = n
    ∧ totalDelay (scrollOf o) = n * d
    ∧ n * d ≤ totalDelay (scrollOf o)
    ∧ (n = 0 → scrollOf o = []) := by
  have he : scrollOf o = scrollTrace n d := by simp [scrollOf, h1, h2]
  refine ⟨he, ?_, ?_, ?_, ?_⟩
  · rw [he, numScrolls_trace]
  · rw [he, totalDelay_trace]
  · rw [he, totalDelay_trace]
  · intro h0; rw [he, h0]; rfl

theorem c2_scroll_cycles_witness :
    numScrolls (scrollOf DEFAULT_OPTIONS) = 3
    ∧ totalDelay (scrollOf DEFAULT_OPTIONS) = 3 * 2000 := by
  have h := c2_scroll_cycles DEFAULT_OPTIONS 3 2000 rfl rfl
  exact ⟨h.2.1, h.2.2.1⟩

/-- C4 counterexample: a second `init()` on an already-initialized session
launches a second browser process, and the resulting session state differs
from the state after the first `init()`. -/
theorem c4_init_counterexample :
    (init (init initialState)).launched.length = 2
    ∧ init (init initialState) ≠ init initialState := by decide

/-- C4 amended: `init()` is not idempotent — every call launches a fresh
browser process and overwrites the stored handle without closing the
previous process, so a second `init()` leaves two processes launched, a
new handle, and the first process never closed. -/
theorem c4_init_relaunches (s : SessionState) :
    (init (init s)).launched.length = s.launched.length + 2
    ∧ (init s).browser = some s.nextPid
    ∧ (init (init s)).browser = some (s.nextPid + 1)
    ∧ (init (init s)).closed = s.closed
    ∧ init (init s) ≠ init s := by
  refine ⟨by simp [init], rfl, rfl, rfl, ?_⟩
  intro h
  have hn := congrArg (fun t => t.nextPid) h
  simp [init] at hn

theorem c4_init_relaunches_witness :
    (init (init initialState)).launched.length = initialState.launched.length + 2
    ∧ init (init initialState) ≠ init initialState := by
  have h := c4_init_relaunches initialState
  exact ⟨h.1, h.2.2.2.2⟩

/-- C7: `close()` raises no error (it is a total state transition), a
second `close()` in succession is a no-op, and after any `close()` the
session holds no browser handle — the same not-initialized condition as
the freshly constructed state. -/
theorem c7_close_idempotent (s : SessionState) :
    close (close s) = close s
    ∧ (close s).browser = none
    ∧ initialState.browser = none := by
  refine ⟨?_, ?_, rfl⟩ <;>
    cases h : s.browser with
    | none => simp [close, h]
    | some b => simp [close, h]

theorem c7_close_idempotent_witness :
    close (close initialState) = close initialState
    ∧ (close initialState).browser = none :=
  ⟨(c7_close_idempotent initialState).1, (c7_close_idempotent initialState).2.1⟩

/-- C8: `newPage()` fails with the not-initialized error both before any
`init()` (the fresh state) and after any `close()`, instead of returning a
page context. -/
theorem c8_newPage_guard :
    newPage initialState = Except.error notInitializedMsg
    ∧ (∀ s : SessionState, newPage (close s) = Except.error notInitializedMsg) := by
  refine ⟨rfl, fun s => ?_⟩
  cases h : s.browser with
  | none => simp [newPage, close, h]
  | some b => simp [newPage, close, h]

theorem c8_newPage_guard_witness :
    newPage (close (init initialState)) = Except.error notInitializedMsg :=
  c8_newPage_guard.2 (init initialState)

/-- C10: a caller options object whose `scrollCount` and `delay`
properties are present but explicitly `undefined` overrides the stored
defaults with `undefined` in the shallow merge, yet the scroll operation
still behaves exactly as with the documented defaults (3 cycles, 2000 ms)
thanks to the nullish fallbacks at the use site; the effective count and
delay are defined for every constructible configuration. -/
theorem c10_option_merge :
    (mergeOptions { scrollCount := some none, delay := some none }).scrollCount = none
    ∧ (mergeOptions { scrollCount := some none, delay := some none }).delay = none
    ∧ scrollOf (mergeOptions { scrollCount := some none, delay := some none })
        = scrollTrace 3 2000
    ∧ scrollOf (mergeOptions {}) = scrollTrace 3 2000
    ∧ (∀ c : CallerOptions,
        scrollOf (mergeOptions c)
          = scrollTrace (((mergeOptions c).scrollCount).getD 3)
              (((mergeOptions c).delay).getD 2000)) :=
  ⟨rfl, rfl, rfl, rfl, fun _ => rfl⟩

theorem c10_option_merge_witness :
    scrollOf (mergeOptions { headless := some (some false) })
      = scrollTrace
          ((mergeOptions { headless := some (some false) }).scrollCount.getD 3)
          ((mergeOptions { headless := some (some false) }).delay.getD 2000) :=
  c10_option_merge.2.2.2.2 { headless := some (some false) }

/-- C1: an extraction element from which no pin identifier derives
(pattern `/pin/<digits>`) contributes nothing to the sequences returned by
`searchPins` and `getBoardPins`, and `getPinDetails` returns the absent
result (not an error) when no identifier derives from the supplied pin
URL. -/
theorem c1_identifier_gate :
    (∀ (l1 l2 : List SearchPinEl) (el : SearchPinEl),
        getPinId (el.href.getD "") = "" →
        searchPinsEval (l1 ++ el :: l2) = searchPinsEval (l1 ++ l2))
    ∧ (∀ (l1 l2 : List BoardPinEl) (el : BoardPinEl),
        getPinId (el.href.getD "") = "" →
        getBoardPinsEval (l1 ++ el :: l2) = getBoardPinsEval (l1 ++ l2))
    ∧ (∀ (dom : PinDetailsDom) (url : String),
        getPinId url = "" → getPinDetailsEval dom url = none) := by
  refine ⟨?_, ?_, ?_⟩
  · intro l1 l2 el h
    simp [searchPinsEval, List.filterMap_append, List.filterMap_cons, h]
  · intro l1 l2 el h
    simp [getBoardPinsEval, List.filterMap_append, List.filterMap_cons, h]
  · intro dom url h
    simp [getPinDetailsEval, h]

theorem c1_identifier_gate_witness :
    searchPinsEval [{ href := some "/nope/" }] = []
    ∧ getBoardPinsEval [{ href := some "/nope/" }] = []
    ∧ getPinDetailsEval {} "https://www.pinterest.com/today/" = none := by
  obtain ⟨h1, h2, h3⟩ := c1_identifier_gate
  refine ⟨?_, ?_, h3 {} _ (by decide)⟩
  · have hs := h1 [] [] { href := some "/nope/" } (by decide)
    simp only [List.nil_append] at hs
    rw [hs]
    rfl
  · have hb := h2 [] [] { href := some "/nope/" } (by decide)
    simp only [List.nil_append] at hb
    rw [hb]
    rfl

/-- C6: the numeric count fields (`repins` in `getPinDetails`, `pinCount`
in `getUserProfile` boards) are parsed by removing every non-digit
character and converting the remaining digit string, defaulting to 0 when
the text is absent or no digit remains; in particular "1.2K saves" parses
to 12. -/
theorem c6_count_parsing :
    parseCount (some "1.2K saves") = 12
    ∧ parseCount none = 0
    ∧ (∀ s : String, stripNonDigits s = "" → parseCount (some s) = 0)
    ∧ (∀ s : String, stripNonDigits s ≠ "" →
        parseCount (some s) = digitsToNat (stripNonDigits s).data)
    ∧ (∀ (dom : PinDetailsDom) (url : String) (p : Pin),
        getPinDetailsEval dom url = some p →
        p.repins = some (parseCount dom.repinsText))
    ∧ (∀ (dom : ProfileDom) (u : String),
        (getUserProfileEval dom u).boards.map Board.pinCount
          = dom.boardRows.map fun r => parseCount r.countText) := by
  refine ⟨by decide, rfl, ?_, ?_, ?_, ?_⟩
  · intro s h; simp [parseCount, h]
  · intro s h; simp [parseCount, h]
  · intro dom url p h
    by_cases hid : getPinId url = ""
    · simp [getPinDetailsEval, hid] at h
    · simp [getPinDetailsEval, hid] at h
      rw [← h]
  · intro dom u
    simp [getUserProfileEval, boardOfRow, List.map_map, Function.comp]

theorem c6_count_parsing_witness :
    parseCount (some "no digits here") = 0
    ∧ parseCount (some "1.2K saves") = digitsToNat (stripNonDigits "1.2K saves").data
    ∧ Pin.repins
        { id := "99", title := "", description := "", imageUrl := "", link := "",
          pinterestUrl := "https://www.pinterest.com/pin/99/", board := none,
          repins := some 12 }
        = some (parseCount (PinDetailsDom.repinsText { repinsText := some "1.2K saves" })) := by
  have h := c6_count_parsing
  refine ⟨h.2.2.1 "no digits here" (by decide), h.2.2.2.1 "1.2K saves" (by decide), ?_⟩
  exact h.2.2.2.2.1 { repinsText := some "1.2K saves" }
    "https://www.pinterest.com/pin/99/" _ (by decide)

/-- C9: `getUserProfile` always returns a populated profile object and
never the absent result, for every username and document state: there is
no identifier gate, and each field independently defaults to the empty
string or zero when its element is absent. -/
theorem c9_profile_always_populated (dom : ProfileDom) (u : String) :
    getUserProfileRun dom u = some (getUserProfileEval dom u)
    ∧ (getUserProfileEval dom u).username = u
    ∧ (dom.nameText = none → (getUserProfileEval dom u).fullName = "")
    ∧ (dom.bioText = none → (getUserProfileEval dom u).bio = "")
    ∧ (dom.stats = [] →
        (getUserProfileEval dom u).followers = ""
          ∧ (getUserProfileEval dom u).following = "")
    ∧ (dom.monthlyText = none → (getUserProfileEval dom u).monthlyViews = "")
    ∧ (getUserProfileEval dom u).boards = dom.boardRows.map boardOfRow
    ∧ (∀ r : BoardRowEl, r.nameText = none → (boardOfRow r).name = "")
    ∧ (∀ r : BoardRowEl, r.linkHref = none → (boardOfRow r).id = "")
    ∧ (∀ r : BoardRowEl, r.countText = none → (boardOfRow r).pinCount = 0)
    ∧ (∀ r : BoardRowEl, r.imgSrc = none → (boardOfRow r).coverImage = "") := by
  refine ⟨rfl, rfl, ?_, ?_, ?_, ?_, rfl, ?_, ?_, ?_, ?_⟩
  · intro h; simp [getUserProfileEval, optTrim, h]
  · intro h; simp [getUserProfileEval, optTrim, h]
  · intro h; simp [getUserProfileEval, optTrim, h]
  · intro h; simp [getUserProfileEval, optTrim, h]
  · intro r h; simp [boardOfRow, optTrim, h]
  · intro r h
    simp only [boardOfRow]
    rw [h]
    decide
  · intro r h; simp [boardOfRow, parseCount, h]
  · intro r h; simp [boardOfRow, h]

theorem c9_profile_always_populated_witness :
    getUserProfileRun {} "alice" = some (getUserProfileEval {} "alice")
    ∧ (getUserProfileEval {} "alice").fullName = ""
    ∧ (getUserProfileEval {} "alice").followers = ""
    ∧ (boardOfRow {}).id = ""
    ∧ (boardOfRow {}).pinCount = 0 := by
  have h := c9_profile_always_populated {} "alice"
  exact ⟨h.1, h.2.2.1 rfl, (h.2.2.2.2.1 rfl).1,
    h.2.2.2.2.2.2.2.2.1 {} rfl, h.2.2.2.2.2.2.2.2.2.1 {} rfl⟩

/-- C5 counterexample: `getBoardPins` copies the img `src` attribute into
`imageUrl` without any size-token rewriting, so a board pin whose source
is a low-resolution URL is returned with "236x" still in its
`imageUrl`. -/
theorem c5_highres_counterexample :
    (getBoardPinsEval
        [{ href := some "/pin/42/",
           imgSrc := some "https://i.pinimg.com/236x/a.jpg" }]).map Pin.imageUrl
      = ["https://i.pinimg.com/236x/a.jpg"]
    ∧ containsTok "https://i.pinimg.com/236x/a.jpg" "236x" = true := by decide

/-- C5 amended: `getBoardPins` and `getPinDetails` return `imageUrl`
verbatim from the extracted img `src` attribute (defaulting to the empty
string), with no high-resolution rewriting, while every URL returned by
`searchPins` is the extracted source with only its first "236x" occurrence
replaced by "1200x". -/
theorem c5_image_url_sources :
    (∀ (els : List BoardPinEl) (p : Pin), p ∈ getBoardPinsEval els →
        ∃ el, el ∈ els ∧ p.imageUrl = el.imgSrc.getD "")
    ∧ (∀ (dom : PinDetailsDom) (url : String) (p : Pin),
        getPinDetailsEval dom url = some p → p.imageUrl = dom.imgSrc.getD "")
    ∧ (∀ (els : List SearchPinEl) (u : String), u ∈ searchPinsEval els →
        ∃ el, el ∈ els ∧ u = rewriteImg (searchSrc el)) := by
  refine ⟨?_, ?_, ?_⟩
  · intro els p hp
    simp only [getBoardPinsEval, List.mem_filterMap] at hp
    obtain ⟨el, hel, hfe⟩ := hp
    refine ⟨el, hel, ?_⟩
    by_cases hid : getPinId (el.href.getD "") = ""
    · simp [hid] at hfe
    · simp [hid] at hfe
      rw [← hfe]
  · intro dom url p h
    by_cases hid : getPinId url = ""
    · simp [getPinDetailsEval, hid] at h
    · simp [getPinDetailsEval, hid] at h
      rw [← h]
  · intro els u hu
    simp only [searchPinsEval, List.mem_filter, List.mem_filterMap] at hu
    obtain ⟨⟨el, hel, hfe⟩, _⟩ := hu
    refine ⟨el, hel, ?_⟩
    by_cases hid : getPinId (el.href.getD "") = ""
    · simp [hid] at hfe
    · simp [hid] at hfe
      rw [← hfe]

theorem c5_image_url_sources_witness :
    Pin.imageUrl
        { id := "8", title := "", description := "",
          imageUrl := "https://i.pinimg.com/236x/b.jpg", link := "",
          pinterestUrl := "https://www.pinterest.com/pin/8/", board := none,
          repins := some 0 }
      = Option.getD (PinDetailsDom.imgSrc
          { imgSrc := some "https://i.pinimg.com/236x/b.jpg" }) "" := by
  exact c5_image_url_sources.2.1
    { imgSrc := some "https://i.pinimg.com/236x/b.jpg" }
    "https://www.pinterest.com/pin/8/" _ (by decide)

/-- C3 counterexample: the rewriting step replaces only the first
occurrence of "236x", so a URL containing the token twice is rewritten to
a URL that still contains "236x". -/
theorem c3_rewrite_counterexample :
    rewriteImg "https://i.pinimg.com/236x/236x.jpg"
      = "https://i.pinimg.com/1200x/236x.jpg"
    ∧ containsTok (rewriteImg "https://i.pinimg.com/236x/236x.jpg") "236x" = true := by
  decide

/-- C3 amended: the URL-rewriting step replaces only the first (leftmost)
occurrence of "236x" with "1200x": a URL containing at most one occurrence
of "236x" is rewritten to contain none, and a URL with no occurrence is
returned unchanged. -/
theorem c3_rewrite_first_occurrence :
    (∀ u : String, occCount "236x".data u.data ≤ 1 →
        containsTok (rewriteImg u) "236x" = false)
    ∧ (∀ u : String, containsTok u "236x" = false → rewriteImg u = u) := by
  constructor
  · intro u h
    show hasTok "236x".data (rfAux "236x".data "1200x".data u.data) = false
    exact rf_no_tok u.data h
  · intro u h
    show String.mk (rfAux "236x".data "1200x".data u.data) = u
    rw [rf_id _ _ _ h]

theorem c3_rewrite_first_occurrence_witness :
    containsTok (rewriteImg "https://i.pinimg.com/236x/c.jpg") "236x" = false
    ∧ rewriteImg "https://i.pinimg.com/736x/c.jpg"
        = "https://i.pinimg.com/736x/c.jpg" :=
  ⟨c3_rewrite_first_occurrence.1 _ (by decide),
    c3_rewrite_first_occurrence.2 _ (by decide)⟩

end Scrape
